import Mathlib

/-!
Verification of the Blockchain Storage Engine of the `nausica.ai` repository.

This file gives a shallow embedding, in Lean, of the script codec, the
container encoders/decoders, the raw-transaction output extractors, the
UTXO-split builder, the chunk-broadcast retry loop, and the progress traces
of the upload/download orchestrators, translated from:

  * `src/services/bsv.rs`   (push codec, container encoders, split builder)
  * `src/main.rs`           (orchestrators, container decoders, extractors)
  * `src/services/job.rs`   (earlier duplicate implementation)
  * `src/db/sqlite.rs`      (job-store update statements)

Bytes are modelled as `Nat` (the source's `u8` values are always `< 256`;
readers never rely on byte ranges except where noted), byte strings as
`List Nat`, and satoshi amounts (`i64`) as `Int`.  Machine-integer casts
that can truncate (`usize as u32` in the push encoder) are modelled with an
explicit `% 2 ^ 32`.  Rust code paths that can panic (unchecked slicing in
the raw-transaction extractors) are modelled in an explicit crash monad
(`RunResult`), so that "never raises" claims are statable.
-/

/-- Byte list of an ASCII string literal (`Char.toNat` of each character;
all string constants in the sources are ASCII, where this agrees with the
UTF-8 bytes Rust's `as_bytes` produces). -/
def ascii (s : String) : List Nat := s.data.map Char.toNat

/-- Decimal digits (ASCII) of a natural number, least fuel `n + 1`:
a model of Rust's `to_string` on unsigned integers
(`src/services/bsv.rs:523` uses it for the chunk index). -/
def natDecimalGo : Nat → Nat → List Nat
  | 0, _ => []
  | fuel + 1, n => if n < 10 then [48 + n] else natDecimalGo fuel (n / 10) ++ [48 + n % 10]

/-- ASCII decimal rendering of a `Nat` (Rust `to_string`). -/
def natDecimal (n : Nat) : List Nat := natDecimalGo (n + 1) n

/-! ## Push codec (`src/services/bsv.rs:265-282`, `push_data`)

The encoder appends a length header and the raw data.  The `usize → u32`
cast in the `OP_PUSHDATA4` arm truncates, hence the `% 2 ^ 32`. -/

/-- The bytes `push_data` appends for one datum: length header then data.
Translated from `BsvService::push_data` (`src/services/bsv.rs:265-282`);
`(len as u16).to_le_bytes()` and `(len as u32).to_le_bytes()` are written
out as their little-endian byte values. -/
def push_encoding (data : List Nat) : List Nat :=
  let len := data.length
  if len ≤ 75 then len :: data
  else if len ≤ 255 then 0x4c :: len :: data
  else if len ≤ 65535 then 0x4d :: (len % 256) :: (len / 256 % 256) :: data
  else
    let l32 := len % 2 ^ 32
    0x4e :: (l32 % 256) :: (l32 / 256 % 256) :: (l32 / 65536 % 256) ::
      (l32 / 16777216 % 256) :: data

/-- `BsvService::push_data` takes the script built so far and appends the
push encoding of `data` (`src/services/bsv.rs:265-282`). -/
def push_data (script : List Nat) (data : List Nat) : List Nat :=
  script ++ push_encoding data

/-- `read_push_data` from `src/main.rs:1536-1579`: reads one push at the
start of `script`, returning the pushed bytes and the number of bytes
consumed, or `none` on a truncated push or a non-push leading opcode.
Multi-byte lengths are reassembled from the little-endian length bytes
exactly as `u16::from_le_bytes` / `u32::from_le_bytes` do. -/
def read_push_data (script : List Nat) : Option (List Nat × Nat) :=
  match script with
  | [] => none
  | opcode :: _ =>
    if opcode ≤ 0x4b then
      let len := opcode
      if script.length < 1 + len then none
      else some ((script.drop 1).take len, 1 + len)
    else if opcode = 0x4c then
      if script.length < 2 then none
      else
        let len := script.getD 1 0
        if script.length < 2 + len then none
        else some ((script.drop 2).take len, 2 + len)
    else if opcode = 0x4d then
      if script.length < 3 then none
      else
        let len := script.getD 1 0 + 256 * script.getD 2 0
        if script.length < 3 + len then none
        else some ((script.drop 3).take len, 3 + len)
    else if opcode = 0x4e then
      if script.length < 5 then none
      else
        let len := script.getD 1 0 + 256 * script.getD 2 0 + 65536 * script.getD 3 0 +
          16777216 * script.getD 4 0
        if script.length < 5 + len then none
        else some ((script.drop 5).take len, 5 + len)
    else none

/-- `BsvService::read_push_data` from `src/services/bsv.rs:218-262`: the
position-indexed variant returning `Result`.  Behaviour mirrors the
`main.rs` reader but indexes into `script` at `pos` and returns the
position just past the data. -/
def bsv_read_push_data (script : List Nat) (pos : Nat) :
    Except String (List Nat × Nat) :=
  if script.length ≤ pos then .error "Unexpected end of script"
  else
    let opcode := script.getD pos 0
    let step : Option (Nat × Nat) :=
      if opcode ≤ 75 then some (opcode, pos + 1)
      else if opcode = 0x4c then
        if script.length ≤ pos + 1 then none
        else some (script.getD (pos + 1) 0, pos + 2)
      else if opcode = 0x4d then
        if script.length ≤ pos + 2 then none
        else some (script.getD (pos + 1) 0 + 256 * script.getD (pos + 2) 0, pos + 3)
      else if opcode = 0x4e then
        if script.length ≤ pos + 4 then none
        else some (script.getD (pos + 1) 0 + 256 * script.getD (pos + 2) 0 +
          65536 * script.getD (pos + 3) 0 + 16777216 * script.getD (pos + 4) 0, pos + 5)
      else none
    match step with
    | none => .error "malformed push"
    | some (dataLen, dataStart) =>
      if script.length < dataStart + dataLen then .error "Data extends beyond script"
      else .ok ((script.drop dataStart).take dataLen, dataStart + dataLen)

/-! ## Push-sequence parsing loop

`parse_flac_chunk_script`, `parse_flac_manifest_script`,
`parse_flac_store_script` and `parse_op_return_script` in `src/main.rs`
all share the same loop: starting at the top of the (prefix-stripped)
script, read pushes until `OP_ENDIF` (`0x68`) or the end of the script,
failing if any push is malformed.  The loop is modelled with a fuel equal
to the script length; each successful push consumes at least one byte, so
the fuel never runs out. -/

def parse_push_items_go : Nat → List Nat → List (List Nat) →
    Option (List (List Nat))
  | 0, s, acc => if s.isEmpty then some acc.reverse else none
  | fuel + 1, s, acc =>
    match s with
    | [] => some acc.reverse
    | b :: rest =>
      if b = 0x68 then some acc.reverse
      else
        match read_push_data (b :: rest) with
        | none => none
        | some (data, consumed) =>
          parse_push_items_go fuel ((b :: rest).drop consumed) (data :: acc)

/-- The push items of a script section, in order (the shared decoder loop
of `src/main.rs:1314-1322`, `1409-1417`, `1478-1486`, `1516-1520`). -/
def parse_push_items (s : List Nat) : Option (List (List Nat)) :=
  parse_push_items_go s.length s []

/-! ## Payload chunking (`src/services/bsv.rs:172-176`, `split_into_chunks`)

`data.chunks(max_chunk_size)`: successive slices of `max_chunk_size` bytes,
the last one possibly shorter.  The inline `while` loop of
`src/main.rs:623-629` computes the same list
(`end = min(offset + max_tx_data_size, file_size)`).  Rust's `chunks`
panics on a zero chunk size; the model returns `[]` in that (never
exercised) case, and every theorem about it assumes `0 < max_chunk_size`. -/

def split_into_chunks_go : Nat → List Nat → Nat → List (List Nat)
  | 0, _, _ => []
  | fuel + 1, data, m =>
    if data.isEmpty then []
    else data.take m :: split_into_chunks_go fuel (data.drop m) m

/-- `BsvService::split_into_chunks` (`src/services/bsv.rs:172-176`). -/
def split_into_chunks (data : List Nat) (m : Nat) : List (List Nat) :=
  split_into_chunks_go data.length data m

/-! ## Minimal JSON model

The decoders run `serde_json::from_str` on the metadata push and read
individual fields (`metadata["title"].as_str()`, …); the encoders build
the metadata with `serde_json::json!{...}.to_string()`.  `serde_json`'s
default object representation is a `BTreeMap`, so emitted objects list
their keys in ascending (alphabetical) order; the encoder models below
write those strings out directly.  For the decoding side a small JSON
reader is defined covering the fragment the sources produce: one flat
object whose values are strings (with the simple escapes), unsigned
integers, booleans or null, with optional JSON whitespace.  Inputs
outside this fragment (nested values, floats, `\u` escapes, non-UTF-8
bytes) do not arise in any theorem below. -/

inductive JValue : Type
  | jstr (s : List Nat)
  | jnum (n : Nat)
  | jbool (b : Bool)
  | jnull
deriving DecidableEq

/-- JSON whitespace (space, tab, line feed, carriage return). -/
def jsonWs (c : Nat) : Bool := c = 32 || c = 9 || c = 10 || c = 13

def skipWs (s : List Nat) : List Nat := s.dropWhile jsonWs

/-- Read a JSON string body (opening quote already consumed): returns the
unescaped content and the remainder after the closing quote. -/
def parseJStringGo : Nat → List Nat → Option (List Nat × List Nat)
  | 0, _ => none
  | _, [] => none
  | fuel + 1, c :: rest =>
    if c = 34 then some ([], rest)
    else if c = 92 then
      match rest with
      | [] => none
      | e :: rest2 =>
        let decoded : Option Nat :=
          if e = 34 then some 34
          else if e = 92 then some 92
          else if e = 47 then some 47
          else if e = 98 then some 8
          else if e = 102 then some 12
          else if e = 110 then some 10
          else if e = 114 then some 13
          else if e = 116 then some 9
          else none
        match decoded with
        | none => none
        | some d =>
          (parseJStringGo fuel rest2).map (fun p => (d :: p.1, p.2))
    else (parseJStringGo fuel rest).map (fun p => (c :: p.1, p.2))

def isDigit (c : Nat) : Bool := 48 ≤ c && c ≤ 57

/-- Read a run of decimal digits as a number. -/
def parseJDigits : List Nat → Nat → Option (Nat × List Nat)
  | [], acc => some (acc, [])
  | c :: rest, acc =>
    if isDigit c then parseJDigits rest (acc * 10 + (c - 48))
    else some (acc, c :: rest)

/-- Read one JSON value of the flat fragment. -/
def parseJValue (s : List Nat) : Option (JValue × List Nat) :=
  match s with
  | [] => none
  | c :: rest =>
    if c = 34 then
      (parseJStringGo rest.length rest).map (fun p => (JValue.jstr p.1, p.2))
    else if isDigit c then
      (parseJDigits rest (c - 48)).map (fun p => (JValue.jnum p.1, p.2))
    else if s.take 4 = ascii "true" then some (JValue.jbool true, s.drop 4)
    else if s.take 5 = ascii "false" then some (JValue.jbool false, s.drop 5)
    else if s.take 4 = ascii "null" then some (JValue.jnull, s.drop 4)
    else none

/-- Read the members of a flat JSON object (opening brace consumed). -/
def parseJMembersGo : Nat → List Nat → List (List Nat × JValue) →
    Option (List (List Nat × JValue) × List Nat)
  | 0, _, _ => none
  | fuel + 1, s, acc =>
    match skipWs s with
    | [] => none
    | c :: rest =>
      if c = 125 then some (acc.reverse, rest)
      else if c = 34 then
        match parseJStringGo rest.length rest with
        | none => none
        | some (key, afterKey) =>
          match skipWs afterKey with
          | [] => none
          | c2 :: rest2 =>
            if c2 = 58 then
              match parseJValue (skipWs rest2) with
              | none => none
              | some (v, afterVal) =>
                match skipWs afterVal with
                | [] => none
                | c3 :: rest3 =>
                  if c3 = 44 then parseJMembersGo fuel rest3 ((key, v) :: acc)
                  else if c3 = 125 then some (((key, v) :: acc).reverse, rest3)
                  else none
            else none
      else none

/-- Parse a byte string as one flat JSON object, requiring only whitespace
after it (as `serde_json::from_str` does). -/
def json_parse_flat (s : List Nat) : Option (List (List Nat × JValue)) :=
  match skipWs s with
  | [] => none
  | c :: rest =>
    if c = 123 then
      match parseJMembersGo rest.length rest [] with
      | none => none
      | some (obj, rest2) => if skipWs rest2 = [] then some obj else none
    else none

/-- Field lookup; on duplicate keys the last wins, as in `serde_json`'s
map insertion. -/
def jlookup (obj : List (List Nat × JValue)) (key : List Nat) : Option JValue :=
  (obj.reverse.find? (fun p => p.1 = key)).map Prod.snd

/-- `metadata[key].as_str().filter(|s| !s.is_empty()).map(to_string)` as
used by `parse_flac_manifest_script` (`src/main.rs:1337-1342`): `none`
when the metadata is not valid JSON, the key is missing, its value is not
a string, or the string is empty. -/
def metadata_str_field (md : List Nat) (key : List Nat) : Option (List Nat) :=
  match json_parse_flat md with
  | none => none
  | some obj =>
    match jlookup obj key with
    | some (JValue.jstr s) => if s = [] then none else some s
    | _ => none

/-! ## Container scripts -/

/-- `BsvService::create_flac_chunk_script` (`src/services/bsv.rs:512-532`):
`OP_FALSE OP_IF <"flacstore-chunk"> <index decimal ASCII> <data> OP_ENDIF`.
The `chunk_index` argument is the source's `u32` value (the caller casts
`i as u32`); `_total_chunks` is ignored by the source and omitted. -/
def create_flac_chunk_script (chunk_index : Nat) (data : List Nat) : List Nat :=
  push_data (push_data (push_data [0x00, 0x63] (ascii "flacstore-chunk"))
    (natDecimal chunk_index)) data ++ [0x68]

/-- `parse_flac_chunk_script` (`src/main.rs:1405-1433`), applied by
`extract_flac_chunk_from_tx` to the script after its `OP_FALSE OP_IF`
prefix: needs at least three pushes, the first equal to
`"flacstore-chunk"`, and returns the third.  The source compares
`String::from_utf8_lossy(items[0])` against the tag; for byte lists this
holds exactly when the bytes equal the tag's bytes (UTF-8 decoding is
injective and lossy replacement characters never match the ASCII tag). -/
def parse_flac_chunk_script (script : List Nat) : Option (List Nat) :=
  match parse_push_items script with
  | none => none
  | some items =>
    if items.length < 3 then none
    else if items.getD 0 [] ≠ ascii "flacstore-chunk" then none
    else some (items.getD 2 [])

/-- The metadata JSON emitted by `create_flac_manifest_script`
(`src/services/bsv.rs:563-568`): `serde_json::json!` with fields
`size`, `chunks`, `version`, `mime`; serialized with `serde_json`'s
default `BTreeMap` object, whose keys come out in ascending order
(`chunks`, `mime`, `size`, `version`). -/
def manifest_metadata_json (file_size chunks : Nat) : List Nat :=
  ascii "\x7b\"chunks\":" ++ natDecimal chunks ++
    ascii ",\"mime\":\"audio/flac\",\"size\":" ++ natDecimal file_size ++
    ascii ",\"version\":\"1.0\"\x7d"

/-- `BsvService::create_flac_manifest_script` (`src/services/bsv.rs:545-580`):
`OP_FALSE OP_IF <"flacstore-manifest"> <filename> <metadata JSON>
<chunk txids…> OP_ENDIF`.  `filename` and the txids are byte lists (the
UTF-8 bytes of the source's strings). -/
def create_flac_manifest_script (filename : List Nat) (file_size : Nat)
    (chunk_txids : List (List Nat)) : List Nat :=
  chunk_txids.foldl push_data
    (push_data (push_data (push_data [0x00, 0x63] (ascii "flacstore-manifest"))
      filename) (manifest_metadata_json file_size chunk_txids.length)) ++ [0x68]

/-- The record `parse_flac_manifest_script` returns
(`src/main.rs:1300-1308`).  String fields are kept as byte lists (the
source's `from_utf8_lossy` output agrees bytewise on valid UTF-8).  Note
the record has no size field: the decoder does not return the size. -/
structure ManifestMetadata where
  filename : List Nat
  chunk_txids : List (List Nat)
  title : Option (List Nat)
  artist : Option (List Nat)
  lyrics : Option (List Nat)
  cover_txid : Option (List Nat)
deriving DecidableEq

/-- `parse_flac_manifest_script` (`src/main.rs:1310-1364`), applied to the
script after its `OP_FALSE OP_IF` prefix: at least three pushes, first
push `"flacstore-manifest"`, filename = second push, optional fields read
from the metadata JSON (third push), chunk txids = pushes four onward,
which must be non-empty. -/
def parse_flac_manifest_script (script : List Nat) : Option ManifestMetadata :=
  match parse_push_items script with
  | none => none
  | some items =>
    if items.length < 3 then none
    else if items.getD 0 [] ≠ ascii "flacstore-manifest" then none
    else
      let md := items.getD 2 []
      let chunk_txids := items.drop 3
      if chunk_txids.isEmpty then none
      else
        some
          { filename := items.getD 1 []
            chunk_txids := chunk_txids
            title := metadata_str_field md (ascii "title")
            artist := metadata_str_field md (ascii "artist")
            lyrics := metadata_str_field md (ascii "lyrics")
            cover_txid := metadata_str_field md (ascii "cover_txid") }

/-- `BsvService::create_flac_store_script` (`src/services/bsv.rs:137-167`):
`OP_FALSE OP_IF <protocol> <mime> <metadata> <chunk…> OP_ENDIF`. -/
def create_flac_store_script (protocol mime_type metadata : List Nat)
    (data_chunks : List (List Nat)) : List Nat :=
  data_chunks.foldl push_data
    (push_data (push_data (push_data [0x00, 0x63] protocol) mime_type) metadata)
    ++ [0x68]

/-- The metadata JSON the single-transaction upload path builds
(`src/main.rs:901-906`): fields `chunked`, `filename`, `size`, `version`
in `BTreeMap` order.  The filename is interpolated as a JSON string; the
model does not escape it (none of the filenames used below need escapes). -/
def single_store_metadata_json (filename : List Nat) (size : Nat) : List Nat :=
  ascii "\x7b\"chunked\":false,\"filename\":\"" ++ filename ++
    ascii "\",\"size\":" ++ natDecimal size ++ ascii ",\"version\":\"1.0\"\x7d"

/-- `parse_flac_store_script` (`src/main.rs:1474-1510`), applied to the
script after its `OP_FALSE OP_IF` prefix: at least four pushes, first
push `"flacstore"`, filename from the metadata JSON (default
`"audio.flac"`), payload = concatenation of pushes four onward.  (The
duplicate in `src/services/job.rs:585-644` likewise rejects scripts with
fewer than four parts.) -/
def parse_flac_store_script (script : List Nat) : Option (List Nat × List Nat) :=
  match parse_push_items script with
  | none => none
  | some items =>
    if items.length < 4 then none
    else if items.getD 0 [] ≠ ascii "flacstore" then none
    else
      let filename :=
        match json_parse_flat (items.getD 2 []) with
        | none => ascii "audio.flac"
        | some obj =>
          match jlookup obj (ascii "filename") with
          | some (JValue.jstr s) => s
          | _ => ascii "audio.flac"
      some ((items.drop 3).flatten, filename)

/-- The push loop of `parse_op_return_script` (`src/main.rs:1516-1520`):
unlike the container loops it has no `OP_ENDIF` break and reads pushes to
the very end of the script. -/
def parse_pushes_all_go : Nat → List Nat → List (List Nat) →
    Option (List (List Nat))
  | 0, s, acc => if s.isEmpty then some acc.reverse else none
  | fuel + 1, s, acc =>
    match s with
    | [] => some acc.reverse
    | b :: rest =>
      match read_push_data (b :: rest) with
      | none => none
      | some (data, consumed) =>
        parse_pushes_all_go fuel ((b :: rest).drop consumed) (data :: acc)

def parse_pushes_all (s : List Nat) : Option (List (List Nat)) :=
  parse_pushes_all_go s.length s []

/-- `parse_op_return_script` (`src/main.rs:1512-1534`), applied to the
script after its `OP_FALSE OP_RETURN` / `OP_RETURN` prefix: at least four
pushes; filename = third push, payload = concatenation of pushes four
onward.  (The legacy layout is `<protocol> <mime> <filename> <payload…>`.) -/
def parse_op_return_script (script : List Nat) : Option (List Nat × List Nat) :=
  match parse_pushes_all script with
  | none => none
  | some items =>
    if items.length < 4 then none
    else some ((items.drop 3).flatten, items.getD 2 [])

/-! ## Crash-instrumented memory accesses

Rust slicing `&v[i..]` / `&v[i..j]` panics when the range is out of
bounds and indexing `v[i]` panics when `i` is out of range.  The
raw-transaction extractors in `src/main.rs` use these without bounds
checks, so they are modelled in an explicit crash monad: `crashed` is a
panic, `value none` a clean `None`, `value (some r)` a clean `Some`. -/

inductive RunResult (α : Type) : Type
  | crashed : RunResult α
  | value : Option α → RunResult α
deriving DecidableEq

/-- Rust `&v[i..]`: `none` models the panic when `i > v.len()`. -/
def listSuffix (l : List Nat) (i : Nat) : Option (List Nat) :=
  if i ≤ l.length then some (l.drop i) else none

/-- Rust `&v[i..j]`: `none` models the panic when `i > j` or `j > v.len()`. -/
def listSegment (l : List Nat) (i j : Nat) : Option (List Nat) :=
  if i ≤ j ∧ j ≤ l.length then some ((l.drop i).take (j - i)) else none

/-- Rust `v[i]`: `none` models the panic when `i ≥ v.len()`. -/
def listIndex (l : List Nat) (i : Nat) : Option Nat :=
  if i < l.length then some (l.getD i 0) else none

/-- `read_push_data` (`src/main.rs:1536-1579`) with every slice and index
routed through the crash-aware accessors: used to prove the reader itself
never panics. -/
def read_push_data_checked (script : List Nat) : RunResult (List Nat × Nat) :=
  match script with
  | [] => .value none
  | opcode :: _ =>
    if opcode ≤ 0x4b then
      if script.length < 1 + opcode then .value none
      else
        match listSegment script 1 (1 + opcode) with
        | none => .crashed
        | some d => .value (some (d, 1 + opcode))
    else if opcode = 0x4c then
      if script.length < 2 then .value none
      else
        match listIndex script 1 with
        | none => .crashed
        | some len =>
          if script.length < 2 + len then .value none
          else
            match listSegment script 2 (2 + len) with
            | none => .crashed
            | some d => .value (some (d, 2 + len))
    else if opcode = 0x4d then
      if script.length < 3 then .value none
      else
        match listIndex script 1, listIndex script 2 with
        | some b1, some b2 =>
          let len := b1 + 256 * b2
          if script.length < 3 + len then .value none
          else
            match listSegment script 3 (3 + len) with
            | none => .crashed
            | some d => .value (some (d, 3 + len))
        | _, _ => .crashed
    else if opcode = 0x4e then
      if script.length < 5 then .value none
      else
        match listIndex script 1, listIndex script 2, listIndex script 3,
            listIndex script 4 with
        | some b1, some b2, some b3, some b4 =>
          let len := b1 + 256 * b2 + 65536 * b3 + 16777216 * b4
          if script.length < 5 + len then .value none
          else
            match listSegment script 5 (5 + len) with
            | none => .crashed
            | some d => .value (some (d, 5 + len))
        | _, _, _, _ => .crashed
    else .value none

/-- The container decoder loop with the crash-aware push reader. -/
def parse_push_items_checked_go : Nat → List Nat → List (List Nat) →
    RunResult (List (List Nat))
  | 0, s, acc => if s.isEmpty then .value (some acc.reverse) else .value none
  | fuel + 1, s, acc =>
    match s with
    | [] => .value (some acc.reverse)
    | b :: rest =>
      if b = 0x68 then .value (some acc.reverse)
      else
        match read_push_data_checked (b :: rest) with
        | .crashed => .crashed
        | .value none => .value none
        | .value (some (data, consumed)) =>
          parse_push_items_checked_go fuel ((b :: rest).drop consumed) (data :: acc)

def parse_push_items_checked (s : List Nat) : RunResult (List (List Nat)) :=
  parse_push_items_checked_go s.length s []

/-! ## Raw-transaction output extraction (`src/main.rs:1222-1297,1435-1472`)

The extractors skip the 4-byte version, the inputs, then scan the outputs
for a matching script.  Every `&tx_bytes[i..]` and
`&tx_bytes[i..i + script_len]` is unchecked in the source and is modelled
with the crash-aware accessors.  (The source takes a hex string and
`hex::decode`s it first — a step that fails cleanly; the model starts
from the decoded bytes.) -/

/-- `read_varint` (`src/main.rs:1581-1610`): Bitcoin varint at the start
of `data`, returning value and size consumed. -/
def read_varint (data : List Nat) : Option (Nat × Nat) :=
  match data with
  | [] => none
  | first :: _ =>
    if first < 0xfd then some (first, 1)
    else if first = 0xfd then
      if data.length < 3 then none
      else some (data.getD 1 0 + 256 * data.getD 2 0, 3)
    else if first = 0xfe then
      if data.length < 5 then none
      else some (data.getD 1 0 + 256 * data.getD 2 0 + 65536 * data.getD 3 0 +
        16777216 * data.getD 4 0, 5)
    else
      if data.length < 9 then none
      else some (data.getD 1 0 + 256 * data.getD 2 0 + 65536 * data.getD 3 0 +
        16777216 * data.getD 4 0 + 4294967296 * data.getD 5 0 +
        1099511627776 * data.getD 6 0 + 281474976710656 * data.getD 7 0 +
        72057594037927936 * data.getD 8 0, 9)

/-- Skip `count` transaction inputs starting at offset `i`
(per input: 32-byte txid, 4-byte vout, varint script length, script,
4-byte sequence), returning the offset after them. -/
def skip_inputs_go (tx : List Nat) : Nat → Nat → RunResult Nat
  | 0, i => .value (some i)
  | count + 1, i =>
    let j := i + 36
    match listSuffix tx j with
    | none => .crashed
    | some s =>
      match read_varint s with
      | none => .value none
      | some (slen, vs) => skip_inputs_go tx count (j + vs + slen + 4)

/-- Scan `count` outputs starting at offset `i`.  `check` inspects one
output script: `none` means "not this output, keep scanning";
`some r` means the extractor returns `r` immediately (which is how the
OP_RETURN extractor can return `None` early, while the container
extractors only stop on success). -/
def scan_outputs_go (tx : List Nat) (check : List Nat → Option (Option α)) :
    Nat → Nat → RunResult α
  | 0, _ => .value none
  | count + 1, i =>
    let j := i + 8
    match listSuffix tx j with
    | none => .crashed
    | some s =>
      match read_varint s with
      | none => .value none
      | some (slen, vs) =>
        let ds := j + vs
        match listSegment tx ds (ds + slen) with
        | none => .crashed
        | some script =>
          match check script with
          | some r => .value r
          | none => scan_outputs_go tx check count (ds + slen)

/-- The shared extractor skeleton of `extract_op_return_from_tx`,
`extract_flac_manifest_from_tx`, `extract_flac_chunk_from_tx` and
`extract_flac_from_tx` (`src/main.rs:1222-1297,1366-1403,1435-1472`). -/
def extract_outputs (tx : List Nat) (check : List Nat → Option (Option α)) :
    RunResult α :=
  match listSuffix tx 4 with
  | none => .crashed
  | some s0 =>
    match read_varint s0 with
    | none => .value none
    | some (input_count, vs) =>
      match skip_inputs_go tx input_count (4 + vs) with
      | .crashed => .crashed
      | .value none => .value none
      | .value (some i) =>
        match listSuffix tx i with
        | none => .crashed
        | some s1 =>
          match read_varint s1 with
          | none => .value none
          | some (output_count, vs2) => scan_outputs_go tx check output_count (i + vs2)

/-- `extract_op_return_from_tx` (`src/main.rs:1222-1258`): on the first
output whose script leads with `OP_FALSE OP_RETURN` or `OP_RETURN`, the
parse result is returned directly (success or not). -/
def extract_op_return_from_tx (tx : List Nat) : RunResult (List Nat × List Nat) :=
  extract_outputs tx (fun script =>
    if 2 < script.length ∧
        (script.getD 0 0 = 0x00 ∧ script.getD 1 0 = 0x6a ∨ script.getD 0 0 = 0x6a) then
      some (parse_op_return_script
        (script.drop (if script.getD 0 0 = 0x00 then 2 else 1)))
    else none)

/-- `extract_flac_manifest_from_tx` (`src/main.rs:1260-1297`): scans for
an `OP_FALSE OP_IF` output that parses as a manifest; parse failures keep
scanning. -/
def extract_flac_manifest_from_tx (tx : List Nat) : RunResult ManifestMetadata :=
  extract_outputs tx (fun script =>
    if 2 < script.length ∧ script.getD 0 0 = 0x00 ∧ script.getD 1 0 = 0x63 then
      match parse_flac_manifest_script (script.drop 2) with
      | some m => some (some m)
      | none => none
    else none)

/-- `extract_flac_from_tx` (`src/main.rs:1435-1472`): scans for an
`OP_FALSE OP_IF` output that parses as a single-transaction container. -/
def extract_flac_from_tx (tx : List Nat) : RunResult (List Nat × List Nat) :=
  extract_outputs tx (fun script =>
    if 2 < script.length ∧ script.getD 0 0 = 0x00 ∧ script.getD 1 0 = 0x63 then
      match parse_flac_store_script (script.drop 2) with
      | some r => some (some r)
      | none => none
    else none)

/-! ## Download decision (`src/main.rs:1093-1217`, `process_flac_download`)

After fetching the raw transaction, the FLAC download orchestrator tries
the manifest extractor, then the single-container extractor, and
otherwise records the error `"No FLAC data found in transaction"`.  (It
never calls `extract_op_return_from_tx`; the legacy path lives in the
separate `process_download`.) -/

inductive FlacDownloadDecision : Type
  | manifestPath (m : ManifestMetadata)
  | singlePath (file_data filename : List Nat)
  | failedNoData
deriving DecidableEq

/-- The branch `process_flac_download` takes on a fetched transaction
(`src/main.rs:1094`, `1191`, `1214-1217`). -/
def flac_download_decide (tx : List Nat) : RunResult FlacDownloadDecision :=
  match extract_flac_manifest_from_tx tx with
  | .crashed => .crashed
  | .value (some m) => .value (some (.manifestPath m))
  | .value none =>
    match extract_flac_from_tx tx with
    | .crashed => .crashed
    | .value (some r) => .value (some (.singlePath r.1 r.2))
    | .value none => .value (some .failedNoData)

/-- A transaction whose sole output carries the legacy
`OP_FALSE OP_RETURN "upfile" "text/plain" "greeting.txt" "hello"` script:
4-byte version, no inputs, one output of value 0 with the 39-byte script. -/
def legacy_op_return_tx : List Nat :=
  [1, 0, 0, 0] ++ [0] ++ [1] ++ [0, 0, 0, 0, 0, 0, 0, 0] ++ [39] ++
    ([0x00, 0x6a] ++ push_encoding (ascii "upfile") ++
      push_encoding (ascii "text/plain") ++ push_encoding (ascii "greeting.txt") ++
      push_encoding (ascii "hello"))

/-! ## UTXO split transaction (`src/services/bsv.rs:589-628`)

`create_split_transaction` computes the fee from `self.fee_rate` (an
`f64`) as `ceil(fee_rate * (10 + 148 + 34 * num_outputs))`; floating-point
arithmetic is not modelled, so the computed fee enters the model as an
explicit parameter.  On success the source hands the output list to
`create_transaction` for serialization and ECDSA signing (external
secp256k1 primitives, out of the model); the output section of the signed
transaction lists exactly these `(script, satoshis)` pairs in order. -/

/-- The output list (and insufficient-funds check) of
`BsvService::create_split_transaction` (`src/services/bsv.rs:589-628`):
`num_outputs` outputs of `satoshis_per_output` to `script_pubkey`, plus a
change output when the remainder exceeds 546. -/
def create_split_transaction_outputs (input_satoshis : Int)
    (script_pubkey : List Nat) (num_outputs : Nat) (satoshis_per_output fee : Int) :
    Except String (List (List Nat × Int)) :=
  let total_output := satoshis_per_output * num_outputs
  if input_satoshis < total_output + fee then
    .error ("Insufficient funds for split: " ++ toString input_satoshis ++ " < " ++
      toString total_output ++ " + " ++ toString fee)
  else
    let outputs := List.replicate num_outputs (script_pubkey, satoshis_per_output)
    let change := input_satoshis - total_output - fee
    if change > 546 then .ok (outputs ++ [(script_pubkey, change)])
    else .ok outputs

/-- `BsvService::create_p2pkh_script` (`src/services/bsv.rs:285-305`),
given the already Base58-decoded 25-byte address payload:
`OP_DUP OP_HASH160 <20-byte hash> OP_EQUALVERIFY OP_CHECKSIG`. -/
def create_p2pkh_script (decoded : List Nat) : Except String (List Nat) :=
  if decoded.length ≠ 25 then .error "Invalid address length"
  else .ok ([0x76, 0xa9, 0x14] ++ (decoded.drop 1).take 20 ++ [0x88, 0xac])

/-! ## Chunk broadcast retry loop (`src/main.rs:770-811`)

`for retry in 0..5 { if retry > 0 { sleep(1 << retry) } … }`: every
attempt after the first is preceded by a sleep of `1 << retry` seconds.
The loop is modelled over an oracle giving each attempt's broadcast
outcome; it returns the seconds slept, the number of attempts made, and
the txid if one attempt succeeded. -/

def chunk_broadcast_go (result : Nat → Except String String) :
    Nat → Nat → List Nat × Nat × Option String
  | 0, _ => ([], 0, none)
  | fuel + 1, retry =>
    let delays := if 0 < retry then [2 ^ retry] else []
    match result retry with
    | .ok txid => (delays, 1, some txid)
    | .error _ =>
      let rest := chunk_broadcast_go result fuel (retry + 1)
      (delays ++ rest.1, rest.2.1 + 1, rest.2.2)

/-- The chunk broadcast loop (`src/main.rs:774-801`): at most 5 attempts,
sleeping `1 << retry` seconds before attempt `retry + 1`.  When all five
fail, `process_flac_upload` records the error and returns, broadcasting
no further chunks (`src/main.rs:803-807`). -/
def chunk_broadcast_loop (result : Nat → Except String String) :
    List Nat × Nat × Option String :=
  chunk_broadcast_go result 5 0

/-! ## Upload progress trace (`src/main.rs:481-882`, `process_flac_upload`)

The progress values written by `update_job_progress` on the multi-chunk
happy path, in program order.  `update_job_progress`
(`src/db/sqlite.rs:223-230`) stores the given value unchanged, and
`update_job_complete` (`src/db/sqlite.rs:232-245`) sets progress 100.
The source computes the per-chunk value in `f64`
(`10.0 + 70.0 * (i / total)`); the constants involved are small and
exact, modelled in `ℚ`. -/
def upload_progress_trace (hasCover : Bool) (totalChunks : Nat) : List ℚ :=
  [5] ++ (if hasCover then [3] else []) ++ [5, 8, 10] ++
    (List.range totalChunks).map (fun i => 10 + 70 * (i : ℚ) / totalChunks) ++
    [85, 95, 100]

/-! ## Spec-modelled manifest metadata with optional fields

Modelled from the spec: the `create_flac_manifest_script` actually invoked
by `process_flac_upload` (`src/main.rs:820-828`) takes
`title / artist / lyrics / cover_txid` arguments, but the only copy of the
function under `src/` (`src/services/bsv.rs:545-580`) has the 3-argument
signature — the 7-argument version is not in the provided sources.  Per
§4.1 of the spec, "`encode_manifest(filename, size, chunk_txids[], title?,
artist?, lyrics?, cover_txid?)` → bytes … all non-empty optional fields
must be emitted", and §3: "Metadata JSON carries `size`, `chunks`,
`version`, `mime`, and optionally `title`, `artist`, `lyrics`,
`cover_txid`."  The JSON object is modelled as its key/value list. -/
def manifest_metadata_fields (file_size chunks : Nat)
    (title artist lyrics cover_txid : Option (List Nat)) :
    List (List Nat × JValue) :=
  [(ascii "size", JValue.jnum file_size), (ascii "chunks", JValue.jnum chunks),
    (ascii "version", JValue.jstr (ascii "1.0")),
    (ascii "mime", JValue.jstr (ascii "audio/flac"))] ++
  (match title with
    | some t => if t = [] then [] else [(ascii "title", JValue.jstr t)]
    | none => []) ++
  (match artist with
    | some a => if a = [] then [] else [(ascii "artist", JValue.jstr a)]
    | none => []) ++
  (match lyrics with
    | some l => if l = [] then [] else [(ascii "lyrics", JValue.jstr l)]
    | none => []) ++
  (match cover_txid with
    | some c => if c = [] then [] else [(ascii "cover_txid", JValue.jstr c)]
    | none => [])

/-! ## Lemmas about the push codec -/

theorem read_push_data_consumed {s : List Nat} {d : List Nat} {c : Nat}
    (h : read_push_data s = some (d, c)) : 1 ≤ c ∧ c ≤ s.length := by
  cases s with
  | nil => simp [read_push_data] at h
  | cons b rest =>
    simp only [read_push_data] at h
    split_ifs at h <;> simp_all <;> omega

/-- Every branch of the push encoder starts with a non-`OP_ENDIF` byte. -/
theorem push_encoding_cons (d : List Nat) :
    ∃ b t, push_encoding d = b :: t ∧ b ≠ 0x68 := by
  unfold push_encoding
  dsimp only
  split_ifs with h1 h2 h3
  · exact ⟨_, _, rfl, by omega⟩
  · exact ⟨_, _, rfl, by omega⟩
  · exact ⟨_, _, rfl, by omega⟩
  · exact ⟨_, _, rfl, by omega⟩

/-- Reading a push at the start of its encoding (any trailing bytes
allowed) recovers the data, provided the length survived the `u32` cast. -/
theorem read_push_data_push_encoding (d rest : List Nat) (h : d.length < 2 ^ 32) :
    read_push_data (push_encoding d ++ rest) = some (d, (push_encoding d).length) := by
  unfold push_encoding
  dsimp only
  split_ifs with h1 h2 h3
  · simp only [List.cons_append, read_push_data]
    rw [if_pos (by omega), if_neg (by simp <;> omega)]
    simp [List.take_left'] <;> omega
  · simp only [List.cons_append, read_push_data, List.getD_cons_succ, List.getD_cons_zero]
    rw [if_neg (by omega), if_pos (by trivial), if_neg (by simp <;> omega),
      if_neg (by simp <;> omega)]
    simp [List.take_left'] <;> omega
  · simp only [List.cons_append, read_push_data, List.getD_cons_succ, List.getD_cons_zero]
    rw [if_neg (by omega), if_neg (by omega), if_pos (by trivial), if_neg (by simp <;> omega)]
    have hlen : d.length % 256 + 256 * (d.length / 256 % 256) = d.length := by omega
    rw [hlen, if_neg (by simp <;> omega)]
    simp [List.take_left'] <;> omega
  · simp only [List.cons_append, read_push_data, List.getD_cons_succ, List.getD_cons_zero]
    rw [if_neg (by omega), if_neg (by omega), if_neg (by omega), if_pos (by trivial),
      if_neg (by simp <;> omega)]
    have hm : d.length % 2 ^ 32 = d.length := Nat.mod_eq_of_lt h
    have hlen : d.length % 2 ^ 32 % 256 + 256 * (d.length % 2 ^ 32 / 256 % 256) +
        65536 * (d.length % 2 ^ 32 / 65536 % 256) +
        16777216 * (d.length % 2 ^ 32 / 16777216 % 256) = d.length := by
      rw [hm]; omega
    rw [hlen, if_neg (by simp <;> omega)]
    simp [List.take_left'] <;> omega

/-- The concatenated push encodings of a list of items. -/
def pushSeq (items : List (List Nat)) : List Nat :=
  (items.map push_encoding).flatten

theorem foldl_push_data (items : List (List Nat)) (s : List Nat) :
    items.foldl push_data s = s ++ pushSeq items := by
  induction items generalizing s with
  | nil => simp [pushSeq]
  | cons d items ih =>
    simp only [List.foldl_cons, ih, pushSeq, List.map_cons, List.flatten_cons, push_data]
    simp

/-- The decoder loop's result does not depend on the fuel, as long as the
fuel covers the script length. -/
theorem parse_push_items_go_fuel :
    ∀ f1 f2 s acc, s.length ≤ f1 → s.length ≤ f2 →
      parse_push_items_go f1 s acc = parse_push_items_go f2 s acc := by
  intro f1
  induction f1 with
  | zero =>
    intro f2 s acc h1 _
    have : s = [] := List.length_eq_zero.mp (Nat.le_zero.mp h1)
    subst this
    cases f2 <;> simp [parse_push_items_go]
  | succ f1 ih =>
    intro f2 s acc h1 h2
    cases f2 with
    | zero =>
      have : s = [] := List.length_eq_zero.mp (Nat.le_zero.mp h2)
      subst this
      simp [parse_push_items_go]
    | succ f2 =>
      cases s with
      | nil => simp [parse_push_items_go]
      | cons b rest =>
        simp only [parse_push_items_go]
        by_cases hb : b = 0x68
        · simp [hb]
        · simp only [hb, if_false]
          cases hr : read_push_data (b :: rest) with
          | none => rfl
          | some dc =>
            obtain ⟨data, consumed⟩ := dc
            have hc := read_push_data_consumed hr
            simp only []
            apply ih <;>
              (simp only [List.length_drop, List.length_cons] at hc h1 h2 ⊢; omega)

/-- The accumulator of the decoder loop only prepends (reversed) to the
final item list. -/
theorem parse_push_items_go_acc :
    ∀ fuel s acc, parse_push_items_go fuel s acc =
      (parse_push_items_go fuel s []).map (fun items => acc.reverse ++ items) := by
  intro fuel
  induction fuel with
  | zero =>
    intro s acc
    by_cases hs : s.isEmpty <;> simp [parse_push_items_go, hs]
  | succ fuel ih =>
    intro s acc
    cases s with
    | nil => simp [parse_push_items_go]
    | cons b rest =>
      simp only [parse_push_items_go]
      by_cases hb : b = 0x68
      · simp [hb]
      · simp only [hb, if_false]
        cases hr : read_push_data (b :: rest) with
        | none => rfl
        | some dc =>
          obtain ⟨data, consumed⟩ := dc
          simp only []
          rw [ih _ (data :: acc), ih _ [data]]
          cases parse_push_items_go fuel ((b :: rest).drop consumed) [] <;> simp

/-- Decoding a sequence of push encodings terminated by `OP_ENDIF`
recovers exactly the pushed items. -/
theorem parse_push_items_pushSeq :
    ∀ items : List (List Nat), (∀ d ∈ items, d.length < 2 ^ 32) →
      parse_push_items (pushSeq items ++ [0x68]) = some items := by
  intro items
  induction items with
  | nil => intro _; decide
  | cons d items ih =>
    intro h
    have hd32 : d.length < 2 ^ 32 := h d (by simp)
    have htail := ih (fun x hx => h x (by simp [hx]))
    obtain ⟨b, t, hpe, hb⟩ := push_encoding_cons d
    have hscript : pushSeq (d :: items) ++ [0x68] =
        push_encoding d ++ (pushSeq items ++ [0x68]) := by
      simp [pushSeq]
    rw [hscript]
    unfold parse_push_items
    rw [hpe, List.cons_append, List.length_cons]
    simp only [parse_push_items_go]
    rw [if_neg hb]
    have hread : read_push_data (b :: (t ++ (pushSeq items ++ [0x68]))) =
        some (d, (push_encoding d).length) := by
      rw [← List.cons_append, ← hpe]
      exact read_push_data_push_encoding d _ hd32
    rw [hread]
    have hdrop : (b :: (t ++ (pushSeq items ++ [0x68]))).drop (push_encoding d).length =
        pushSeq items ++ [0x68] := by
      rw [← List.cons_append, ← hpe, List.drop_left]
    simp only []
    rw [hdrop]
    rw [parse_push_items_go_fuel _ (pushSeq items ++ [0x68]).length _ [d]
      (by simp) (le_refl _)]
    rw [parse_push_items_go_acc]
    have hx : parse_push_items_go (pushSeq items ++ [0x68]).length
        (pushSeq items ++ [0x68]) [] = some items := htail
    rw [hx]
    simp

/-! ## Lemmas about chunking and decimal rendering -/

theorem split_into_chunks_go_step (fuel : Nat) (data : List Nat) (m : Nat)
    (hdata : data ≠ []) :
    split_into_chunks_go (fuel + 1) data m =
      data.take m :: split_into_chunks_go fuel (data.drop m) m := by
  simp [split_into_chunks_go, List.isEmpty_iff, hdata]

theorem split_into_chunks_go_flatten :
    ∀ fuel data m, data.length ≤ fuel → 0 < m →
      (split_into_chunks_go fuel data m).flatten = data := by
  intro fuel
  induction fuel with
  | zero =>
    intro data m h _
    have : data = [] := List.length_eq_zero.mp (Nat.le_zero.mp h)
    subst this
    simp [split_into_chunks_go]
  | succ fuel ih =>
    intro data m h hm
    by_cases hdata : data = []
    · subst hdata
      simp [split_into_chunks_go]
    · have hpos : 0 < data.length := List.length_pos.mpr hdata
      rw [split_into_chunks_go_step fuel data m hdata, List.flatten_cons,
        ih (data.drop m) m (by simp [List.length_drop]; omega) hm,
        List.take_append_drop]

theorem split_into_chunks_flatten (data : List Nat) (m : Nat) (hm : 0 < m) :
    (split_into_chunks data m).flatten = data :=
  split_into_chunks_go_flatten data.length data m (le_refl _) hm

theorem split_into_chunks_go_chunk_length :
    ∀ fuel data m, ∀ c ∈ split_into_chunks_go fuel data m, c.length ≤ m := by
  intro fuel
  induction fuel with
  | zero => intro data m c hc; simp [split_into_chunks_go] at hc
  | succ fuel ih =>
    intro data m c hc
    by_cases hdata : data = []
    · subst hdata; simp [split_into_chunks_go] at hc
    · rw [split_into_chunks_go_step fuel data m hdata, List.mem_cons] at hc
      rcases hc with h | h
      · subst h; simp [List.length_take]
      · exact ih _ _ _ h

theorem split_into_chunks_chunk_length (data : List Nat) (m : Nat) :
    ∀ c ∈ split_into_chunks data m, c.length ≤ m :=
  split_into_chunks_go_chunk_length data.length data m

theorem split_into_chunks_go_count :
    ∀ fuel data m, data.length ≤ fuel → 0 < m →
      (split_into_chunks_go fuel data m).length = (data.length + m - 1) / m := by
  intro fuel
  induction fuel with
  | zero =>
    intro data m h hm
    have : data = [] := List.length_eq_zero.mp (Nat.le_zero.mp h)
    subst this
    have hd : (0 + m - 1) / m = 0 := Nat.div_eq_of_lt (by omega)
    simp only [split_into_chunks_go, List.length_nil, hd]
  | succ fuel ih =>
    intro data m h hm
    by_cases hdata : data = []
    · subst hdata
      have hd : (0 + m - 1) / m = 0 := Nat.div_eq_of_lt (by omega)
      simp only [split_into_chunks_go, List.isEmpty_nil, if_true, List.length_nil, hd]
    · have hpos : 0 < data.length := List.length_pos.mpr hdata
      rw [split_into_chunks_go_step fuel data m hdata, List.length_cons,
        ih (data.drop m) m (by simp [List.length_drop]; omega) hm, List.length_drop]
      by_cases hle : data.length ≤ m
      · have h1 : data.length - m = 0 := by omega
        have h2 : (0 + m - 1) / m = 0 := Nat.div_eq_of_lt (by omega)
        have h3 : (data.length + m - 1) / m = 1 := by
          apply Nat.div_eq_of_lt_le <;> omega
        rw [h1, h2, h3]
      · have h2 : data.length - m + m - 1 = data.length - 1 := by omega
        have h3 : data.length + m - 1 = data.length - 1 + m := by omega
        rw [h2, h3, Nat.add_div_right _ hm]

theorem split_into_chunks_count (data : List Nat) (m : Nat) (hm : 0 < m) :
    (split_into_chunks data m).length = (data.length + m - 1) / m :=
  split_into_chunks_go_count data.length data m (le_refl _) hm

theorem natDecimalGo_length_le :
    ∀ fuel n k, n < 10 ^ (k + 1) → (natDecimalGo fuel n).length ≤ k + 1 := by
  intro fuel
  induction fuel with
  | zero => intro n k _; simp [natDecimalGo]
  | succ fuel ih =>
    intro n k h
    by_cases hn : n < 10
    · simp [natDecimalGo, hn]
    · cases k with
      | zero => simp at h; omega
      | succ k =>
        have hdiv : n / 10 < 10 ^ (k + 1) := by
          apply Nat.div_lt_of_lt_mul
          calc n < 10 ^ (k + 1 + 1) := h
            _ = 10 * 10 ^ (k + 1) := by ring
        have := ih (n / 10) k hdiv
        simp only [natDecimalGo, hn, if_false, List.length_append, List.length_cons,
          List.length_nil]
        omega

theorem natDecimal_length_le (n k : Nat) (h : n < 10 ^ (k + 1)) :
    (natDecimal n).length ≤ k + 1 :=
  natDecimalGo_length_le (n + 1) n k h

/-- Mapping an index-aware per-chunk function that acts as the identity on
each chunk (for in-range indices) over the indexed chunk list returns the
chunk list. -/
theorem zip_range'_map_eq_self (l : List (List Nat)) :
    ∀ s (f : Nat × List Nat → List Nat),
      (∀ i c, c ∈ l → i < s + l.length → f (i, c) = c) →
      ((List.range' s l.length).zip l).map f = l := by
  induction l with
  | nil => intro s f _; simp
  | cons c l ih =>
    intro s f h
    rw [List.length_cons, List.range'_succ]
    simp only [List.zip_cons_cons, List.map_cons]
    rw [h s c (by simp) (by simp), ih (s + 1) f (fun i x hx hi => h i x (by simp [hx])
      (by simp at hi ⊢; omega))]

/-- One decoding step of the push loop, for any script opening with a
successful non-`OP_ENDIF` push. -/
theorem parse_push_items_read_step (b0 : Nat) (rest d : List Nat) (c : Nat)
    (hb0 : b0 ≠ 0x68) (hr : read_push_data (b0 :: rest) = some (d, c)) :
    parse_push_items (b0 :: rest) =
      (parse_push_items ((b0 :: rest).drop c)).map (fun items => d :: items) := by
  unfold parse_push_items
  rw [List.length_cons]
  simp only [parse_push_items_go]
  rw [if_neg hb0, hr]
  simp only []
  have hc := read_push_data_consumed hr
  rw [parse_push_items_go_fuel rest.length ((b0 :: rest).drop c).length _ [d]
    (by simp only [List.length_drop, List.length_cons] at hc ⊢; omega) (le_refl _)]
  rw [parse_push_items_go_acc]
  simp

/-- Prepending one push encoding to a script prepends the datum to the
decoded item list. -/
theorem parse_push_items_push (d tail : List Nat) (hd : d.length < 2 ^ 32) :
    parse_push_items (push_encoding d ++ tail) =
      (parse_push_items tail).map (fun items => d :: items) := by
  obtain ⟨b, t, hpe, hb⟩ := push_encoding_cons d
  rw [hpe, List.cons_append]
  rw [parse_push_items_read_step b (t ++ tail) d (push_encoding d).length hb
    (by rw [← List.cons_append, ← hpe]; exact read_push_data_push_encoding d tail hd)]
  congr 1
  rw [← List.cons_append, ← hpe, List.drop_left]

/-- A script starting with `OP_ENDIF` decodes to no items. -/
theorem parse_push_items_endif (rest : List Nat) :
    parse_push_items (0x68 :: rest) = some [] := by
  unfold parse_push_items
  rw [List.length_cons]
  simp [parse_push_items_go]

/-- The chunk-container round trip for a single chunk, under the `u32`
domains of the source (`chunk_index : u32`; a data length that survives
the encoder's `usize as u32` cast). -/
theorem parse_create_flac_chunk (i : Nat) (b : List Nat) (hi : i < 2 ^ 32)
    (hb : b.length < 2 ^ 32) :
    parse_flac_chunk_script ((create_flac_chunk_script i b).drop 2) = some b := by
  have htag : (ascii "flacstore-chunk").length < 2 ^ 32 := by decide
  have hnd : (natDecimal i).length < 2 ^ 32 := by
    have h10 : i < 10 ^ (9 + 1) := lt_of_lt_of_le hi (by norm_num)
    have := natDecimal_length_le i 9 h10
    omega
  have hscript : (create_flac_chunk_script i b).drop 2 =
      pushSeq [ascii "flacstore-chunk", natDecimal i, b] ++ [0x68] := by
    simp [create_flac_chunk_script, push_data, pushSeq]
  rw [hscript]
  rw [parse_flac_chunk_script, parse_push_items_pushSeq _ (by
    intro x hx
    simp only [List.mem_cons, List.mem_singleton] at hx
    rcases hx with rfl | rfl | rfl | h
    · exact htag
    · exact hnd
    · exact hb
    · simp at h)]
  simp

/-- C1 (amended): for every chunk index `i` (a `u32`) and every byte
sequence `b` of fewer than `2 ^ 32` bytes, decoding the chunk container
script produced by `create_flac_chunk_script i b` yields exactly `b`;
and for every payload of fewer than `2 ^ 32` bytes split by
`split_into_chunks` with a positive chunk size below `2 ^ 32`,
concatenating the decoded bodies of the per-chunk scripts in index order
equals the original payload bit-for-bit.  (The `2 ^ 32` bounds come from
the encoder's `usize as u32` length cast; see
`create_flac_chunk_script_truncates` for the failure at `2 ^ 32`.) -/
theorem chunk_script_roundtrip_and_concat :
    (∀ i b, i < 2 ^ 32 → b.length < 2 ^ 32 →
      parse_flac_chunk_script ((create_flac_chunk_script i b).drop 2) = some b) ∧
    (∀ payload m, 0 < m → m < 2 ^ 32 → payload.length < 2 ^ 32 →
      (((List.range (split_into_chunks payload m).length).zip
          (split_into_chunks payload m)).map
        (fun p =>
          (parse_flac_chunk_script
            ((create_flac_chunk_script p.1 p.2).drop 2)).getD [])).flatten = payload) := by
  constructor
  · exact parse_create_flac_chunk
  · intro payload m hm hm32 hp
    have hcount : (split_into_chunks payload m).length ≤ payload.length := by
      rw [split_into_chunks_count payload m hm]
      rcases Nat.eq_zero_or_pos payload.length with h0 | hpos
      · rw [h0]
        have hz : (0 + m - 1) / m = 0 := Nat.div_eq_of_lt (by omega)
        omega
      · rw [Nat.div_le_iff_le_mul_add_pred hm]
        have := Nat.le_mul_of_pos_left payload.length hm
        omega
    rw [List.range_eq_range']
    rw [zip_range'_map_eq_self (split_into_chunks payload m) 0
      (fun p => (parse_flac_chunk_script
        ((create_flac_chunk_script p.1 p.2).drop 2)).getD [])
      (by
        intro i c hc hi
        have hcl : c.length ≤ m := split_into_chunks_chunk_length payload m c hc
        simp only []
        rw [parse_create_flac_chunk i c (by omega) (by omega)]
        rfl)]
    exact split_into_chunks_flatten payload m hm

/-- Witness for `chunk_script_roundtrip_and_concat` at concrete inputs. -/
theorem chunk_script_roundtrip_and_concat_witness :
    parse_flac_chunk_script ((create_flac_chunk_script 3 [5, 6, 7]).drop 2) =
      some [5, 6, 7] ∧
    (((List.range (split_into_chunks [1, 2, 3] 2).length).zip
        (split_into_chunks [1, 2, 3] 2)).map
      (fun p =>
        (parse_flac_chunk_script
          ((create_flac_chunk_script p.1 p.2).drop 2)).getD [])).flatten = [1, 2, 3] :=
  ⟨chunk_script_roundtrip_and_concat.1 3 [5, 6, 7] (by decide) (by decide),
    chunk_script_roundtrip_and_concat.2 [1, 2, 3] 2 (by decide) (by decide) (by decide)⟩

/-- The `OP_PUSHDATA4` shape of the encoder for data beyond the `u16`
range, with the truncating `u32` length bytes. -/
theorem push_encoding_big (d : List Nat) (h : 65535 < d.length) :
    push_encoding d =
      0x4e :: (d.length % 2 ^ 32 % 256) :: (d.length % 2 ^ 32 / 256 % 256) ::
        (d.length % 2 ^ 32 / 65536 % 256) :: (d.length % 2 ^ 32 / 16777216 % 256) :: d := by
  unfold push_encoding
  dsimp only
  rw [if_neg (by omega), if_neg (by omega), if_neg (by omega)]

/-- A `OP_PUSHDATA4` header with four zero length bytes reads as an empty
push consuming five bytes. -/
theorem read_push_data_zero_len4 (rest : List Nat) :
    read_push_data (0x4e :: 0 :: 0 :: 0 :: 0 :: rest) = some ([], 5) := by
  simp only [read_push_data]
  rw [if_neg (by norm_num), if_neg (by norm_num), if_neg (by norm_num),
    if_pos (by trivial), if_neg (by simp)]
  simp only [List.getD_cons_succ, List.getD_cons_zero]
  norm_num

/-- C1 counterexample: at a chunk body of exactly `2 ^ 32` bytes the
encoder's `usize as u32` cast writes a zero length, and decoding the
resulting chunk container returns the empty payload instead of the body,
so the unrestricted claim fails. -/
theorem create_flac_chunk_script_truncates :
    parse_flac_chunk_script
        ((create_flac_chunk_script 0 (List.replicate (2 ^ 32) 0x68)).drop 2) =
      some [] ∧
    some ([] : List Nat) ≠ some (List.replicate (2 ^ 32) 0x68) := by
  constructor
  · have hlen : (List.replicate (2 ^ 32) 0x68).length = 2 ^ 32 :=
      List.length_replicate _ _
    have hpe : push_encoding (List.replicate (2 ^ 32) 0x68) =
        0x4e :: 0 :: 0 :: 0 :: 0 :: List.replicate (2 ^ 32) 0x68 := by
      rw [push_encoding_big _ (by rw [hlen]; norm_num), hlen]
      norm_num
    have hscript : (create_flac_chunk_script 0 (List.replicate (2 ^ 32) 0x68)).drop 2 =
        push_encoding (ascii "flacstore-chunk") ++ (push_encoding (natDecimal 0) ++
          (push_encoding (List.replicate (2 ^ 32) 0x68) ++ [0x68])) := by
      rw [create_flac_chunk_script, push_data, push_data, push_data,
        List.append_assoc, List.append_assoc, List.append_assoc]
      rfl
    have hpe2 : push_encoding (List.replicate (2 ^ 32) 0x68) ++ [0x68] =
        0x4e :: 0 :: 0 :: 0 :: 0 :: (List.replicate (2 ^ 32) 0x68 ++ [0x68]) := by
      rw [hpe, List.cons_append, List.cons_append, List.cons_append, List.cons_append,
        List.cons_append]
    rw [parse_flac_chunk_script, hscript]
    rw [parse_push_items_push _ _ (by decide)]
    rw [parse_push_items_push _ _ (by decide)]
    rw [hpe2]
    rw [parse_push_items_read_step 0x4e _ [] 5 (by norm_num)
      (read_push_data_zero_len4 (List.replicate (2 ^ 32) 0x68 ++ [0x68]))]
    have hdrop : ((0x4e : Nat) :: 0 :: 0 :: 0 :: 0 ::
        (List.replicate (2 ^ 32) 0x68 ++ [0x68])).drop 5 =
        List.replicate (2 ^ 32) 0x68 ++ [0x68] := rfl
    have hrep : List.replicate (2 ^ 32) 0x68 ++ [0x68] =
        0x68 :: (List.replicate (2 ^ 32 - 1) 0x68 ++ [0x68]) := by
      conv_lhs => rw [show (2 : Nat) ^ 32 = (2 ^ 32 - 1) + 1 from by norm_num,
        List.replicate_succ, List.cons_append]
    rw [hdrop, hrep, parse_push_items_endif]
    simp
  · intro h
    have h2 := congrArg (fun o => (o.getD []).length) h
    simp only [Option.getD_some, List.length_nil, List.length_replicate] at h2
    exact absurd h2 (by norm_num)

/-! ## Lemmas for the bsv.rs push reader (C3) -/

/-- The position-indexed reader recovers the datum from the start of its
own encoding. -/
theorem bsv_read_push_data_push_encoding (b : List Nat) (h : b.length < 2 ^ 32) :
    bsv_read_push_data (push_encoding b) 0 = .ok (b, (push_encoding b).length) := by
  unfold push_encoding
  dsimp only
  split_ifs with h1 h2 h3
  · simp only [bsv_read_push_data, List.getD_cons_zero, List.getD_cons_succ]
    rw [if_neg (by simp), if_pos (by omega)]
    simp only []
    rw [if_neg (by simp <;> omega)]
    simp [List.take_left'] <;> omega
  · simp only [bsv_read_push_data, List.getD_cons_zero, List.getD_cons_succ]
    rw [if_neg (by simp), if_neg (by omega), if_pos (by trivial), if_neg (by simp <;> omega)]
    simp only [List.getD_cons_zero, List.getD_cons_succ]
    rw [if_neg (by simp <;> omega)]
    simp [List.take_left'] <;> omega
  · simp only [bsv_read_push_data, List.getD_cons_zero, List.getD_cons_succ]
    rw [if_neg (by simp), if_neg (by omega), if_neg (by omega), if_pos (by trivial),
      if_neg (by simp <;> omega)]
    simp only [List.getD_cons_zero, List.getD_cons_succ]
    have hlen : b.length % 256 + 256 * (b.length / 256 % 256) = b.length := by omega
    rw [hlen, if_neg (by simp <;> omega)]
    simp [List.take_left'] <;> omega
  · simp only [bsv_read_push_data, List.getD_cons_zero, List.getD_cons_succ]
    rw [if_neg (by simp), if_neg (by omega), if_neg (by omega), if_neg (by omega),
      if_pos (by trivial), if_neg (by simp <;> omega)]
    simp only [List.getD_cons_zero, List.getD_cons_succ]
    have hm : b.length % 2 ^ 32 = b.length := Nat.mod_eq_of_lt h
    have hlen : b.length % 2 ^ 32 % 256 + 256 * (b.length % 2 ^ 32 / 256 % 256) +
        65536 * (b.length % 2 ^ 32 / 65536 % 256) +
        16777216 * (b.length % 2 ^ 32 / 16777216 % 256) = b.length := by
      rw [hm]; omega
    rw [hlen, if_neg (by simp <;> omega)]
    simp [List.take_left'] <;> omega

theorem push_data_opcode_case1 (s b : List Nat) (h1 : b.length ≤ 75) :
    push_data s b = s ++ b.length :: b := by
  rw [push_data]
  congr 1
  unfold push_encoding
  dsimp only
  rw [if_pos h1]

/-- C3 (amended): for every byte sequence `b` of length `L < 2 ^ 32`,
`push_data` emits the opcode mandated by the push encoding rules
(`L ≤ 75`: single length byte; `76 ≤ L ≤ 255`: `0x4c` then length byte;
`256 ≤ L ≤ 65535`: `0x4d` then little-endian u16; otherwise `0x4e` then
little-endian u32) followed by `b`, and `bsv_read_push_data` applied at
the start of that encoding returns exactly `b`.  All four forms and the
boundary lengths 0, 1, 75, 76, 255, 256, 65535, 65536 are covered by the
quantifier.  (The `L < 2 ^ 32` bound comes from the `usize as u32` length
cast; see `push_data_truncates_at_2pow32`.) -/
theorem push_data_forms_and_roundtrip (s b : List Nat) (h : b.length < 2 ^ 32) :
    (b.length ≤ 75 → push_data s b = s ++ b.length :: b) ∧
    (76 ≤ b.length → b.length ≤ 255 → push_data s b = s ++ 0x4c :: b.length :: b) ∧
    (256 ≤ b.length → b.length ≤ 65535 →
      push_data s b = s ++ 0x4d :: (b.length % 256) :: (b.length / 256) :: b) ∧
    (65536 ≤ b.length →
      push_data s b = s ++ 0x4e :: (b.length % 256) :: (b.length / 256 % 256) ::
        (b.length / 65536 % 256) :: (b.length / 16777216) :: b) ∧
    bsv_read_push_data (push_data [] b) 0 = .ok (b, (push_encoding b).length) := by
  refine ⟨fun h1 => push_data_opcode_case1 s b h1, ?_, ?_, ?_, ?_⟩
  · intro h1 h2
    rw [push_data]
    congr 1
    unfold push_encoding
    dsimp only
    rw [if_neg (by omega), if_pos h2]
  · intro h1 h2
    rw [push_data]
    congr 1
    unfold push_encoding
    dsimp only
    rw [if_neg (by omega), if_neg (by omega), if_pos h2]
    have hq : b.length / 256 % 256 = b.length / 256 := Nat.mod_eq_of_lt (by omega)
    rw [hq]
  · intro h1
    rw [push_data]
    congr 1
    unfold push_encoding
    dsimp only
    rw [if_neg (by omega), if_neg (by omega), if_neg (by omega)]
    have hm : b.length % 2 ^ 32 = b.length := Nat.mod_eq_of_lt h
    rw [hm]
    have hq : b.length / 16777216 % 256 = b.length / 16777216 := Nat.mod_eq_of_lt (by omega)
    rw [hq]
  · rw [push_data, List.nil_append]
    exact bsv_read_push_data_push_encoding b h

theorem push_data_forms_and_roundtrip_witness :
    (List.replicate 76 0).length < 2 ^ 32 ∧
    push_data [] (List.replicate 76 0) =
      [] ++ 0x4c :: (List.replicate 76 0).length :: List.replicate 76 0 ∧
    bsv_read_push_data (push_data [] (List.replicate 76 0)) 0 =
      .ok (List.replicate 76 0, (push_encoding (List.replicate 76 0)).length) :=
  ⟨by decide,
    (push_data_forms_and_roundtrip [] (List.replicate 76 0) (by decide)).2.1
      (by decide) (by decide),
    (push_data_forms_and_roundtrip [] (List.replicate 76 0) (by decide)).2.2.2.2⟩

theorem bsv_read_push_data_zero_len4 (rest : List Nat) :
    bsv_read_push_data (0x4e :: 0 :: 0 :: 0 :: 0 :: rest) 0 = .ok ([], 5) := by
  simp only [bsv_read_push_data, List.getD_cons_zero, List.getD_cons_succ]
  rw [if_neg (by simp), if_neg (by norm_num), if_neg (by norm_num), if_neg (by norm_num),
    if_pos (by trivial), if_neg (by simp)]
  norm_num

/-- C3 counterexample: at 2^32 bytes the encoder truncates the length to
zero, so the reader recovers the empty string, not the data. -/
theorem push_data_truncates_at_2pow32 :
    bsv_read_push_data (push_data [] (List.replicate (2 ^ 32) 0)) 0 = .ok ([], 5) ∧
    ([] : List Nat) ≠ List.replicate (2 ^ 32) 0 := by
  constructor
  · rw [push_data, List.nil_append,
      push_encoding_big _ (by rw [List.length_replicate]; norm_num),
      List.length_replicate]
    norm_num
    exact bsv_read_push_data_zero_len4 _
  · intro hcontra
    have h2 := congrArg List.length hcontra
    simp only [List.length_nil, List.length_replicate] at h2
    exact absurd h2 (by norm_num)

/-! ## Lemmas for the manifest codec (C2) -/

theorem manifest_metadata_json_length_lt (size n : Nat) (hs : size < 10 ^ 20)
    (hn : n < 10 ^ 20) :
    (manifest_metadata_json size n).length < 2 ^ 32 := by
  have h1 := natDecimal_length_le n 19 hn
  have h2 := natDecimal_length_le size 19 hs
  simp only [manifest_metadata_json, List.length_append]
  have ha1 : (ascii "\x7b\"chunks\":").length ≤ 64 := by decide
  have ha2 : (ascii ",\"mime\":\"audio/flac\",\"size\":").length ≤ 64 := by decide
  have ha3 : (ascii ",\"version\":\"1.0\"\x7d").length ≤ 64 := by decide
  omega

/-- C2 (amended): decoding the manifest script produced by
`create_flac_manifest_script` recovers the filename and the chunk txid
list exactly and in order (`ManifestMetadata` carries no size field, so
the size is only embedded inside the metadata JSON push; see
`manifest_decode_drops_size`).  The bounds are the source's integer
domains (`usize` sizes and counts; push lengths below the `u32` cast). -/
theorem manifest_roundtrip (filename : List Nat) (size : Nat)
    (txids : List (List Nat)) (hf : filename.length < 2 ^ 32) (hs : size < 2 ^ 64)
    (hn : txids.length < 2 ^ 64) (ht : ∀ t ∈ txids, t.length < 2 ^ 32)
    (hne : txids ≠ []) :
    (parse_flac_manifest_script
        ((create_flac_manifest_script filename size txids).drop 2)).map
      (fun m => (m.filename, m.chunk_txids)) = some (filename, txids) := by
  have hde : (2 : Nat) ^ 64 ≤ 10 ^ 20 := by norm_num
  have hmd : (manifest_metadata_json size txids.length).length < 2 ^ 32 :=
    manifest_metadata_json_length_lt size txids.length (by omega) (by omega)
  have hscript : (create_flac_manifest_script filename size txids).drop 2 =
      pushSeq ([ascii "flacstore-manifest", filename,
        manifest_metadata_json size txids.length] ++ txids) ++ [0x68] := by
    rw [create_flac_manifest_script, foldl_push_data]
    simp [push_data, pushSeq]
  rw [parse_flac_manifest_script, hscript]
  rw [parse_push_items_pushSeq _ (by
    intro x hx
    simp only [List.mem_append, List.mem_cons, List.mem_singleton] at hx
    rcases hx with (rfl | rfl | rfl | hfalse) | hmem
    · exact (by decide : (ascii "flacstore-manifest").length < 2 ^ 32)
    · exact hf
    · exact hmd
    · simp at hfalse
    · exact ht x hmem)]
  simp only [List.cons_append, List.nil_append]
  simp [hne, List.isEmpty_iff]

theorem manifest_roundtrip_witness :
    (ascii "a.flac").length < 2 ^ 32 ∧ (1 : Nat) < 2 ^ 64 ∧
    ([ascii "ab"].length < 2 ^ 64) ∧ ([ascii "ab"] : List (List Nat)) ≠ [] ∧
    (parse_flac_manifest_script
        ((create_flac_manifest_script (ascii "a.flac") 1 [ascii "ab"]).drop 2)).map
      (fun m => (m.filename, m.chunk_txids)) = some (ascii "a.flac", [ascii "ab"]) :=
  ⟨by decide, by decide, by decide, by decide,
    manifest_roundtrip (ascii "a.flac") 1 [ascii "ab"] (by decide) (by decide)
      (by decide) (by decide) (by decide)⟩

/-- C2 counterexample: the decoder returns identical results for two
manifests that differ only in their size field, and it succeeds on both,
so decoding does not recover the size. -/
theorem manifest_decode_drops_size :
    parse_flac_manifest_script
        ((create_flac_manifest_script (ascii "a.flac") 1 [ascii "ab"]).drop 2) =
      parse_flac_manifest_script
        ((create_flac_manifest_script (ascii "a.flac") 2 [ascii "ab"]).drop 2) ∧
    (parse_flac_manifest_script
        ((create_flac_manifest_script (ascii "a.flac") 1 [ascii "ab"]).drop 2)).isSome :=
  ⟨by decide, by decide⟩

/-! ## C4: crash behaviour of the decoders and extractors -/

theorem read_push_data_checked_eq (s : List Nat) :
    read_push_data_checked s = RunResult.value (read_push_data s) := by
  cases s with
  | nil => rfl
  | cons b rest =>
    simp only [read_push_data_checked, read_push_data, listSegment, listIndex,
      Nat.add_sub_cancel_left]
    split_ifs <;> simp_all <;> omega

theorem parse_push_items_checked_go_eq :
    ∀ fuel s acc, parse_push_items_checked_go fuel s acc =
      RunResult.value (parse_push_items_go fuel s acc) := by
  intro fuel
  induction fuel with
  | zero =>
    intro s acc
    by_cases h : s.isEmpty <;>
      simp [parse_push_items_checked_go, parse_push_items_go, h]
  | succ fuel ih =>
    intro s acc
    cases s with
    | nil => rfl
    | cons b rest =>
      simp only [parse_push_items_checked_go, parse_push_items_go]
      by_cases hb : b = 0x68
      · simp [hb]
      · simp only [hb, if_false]
        rw [read_push_data_checked_eq]
        cases read_push_data (b :: rest) with
        | none => rfl
        | some dc =>
          obtain ⟨d, c⟩ := dc
          simp only []
          exact ih _ _

/-- C4 (amended): the script push reader and the shared container decoder
loop return cleanly (`None` on malformed input) and never panic: run with
every slice and index access crash-instrumented, they produce exactly the
plain readers' results, never `crashed`.  The raw-transaction extractors,
by contrast, slice the buffer unchecked and do panic on truncated
transactions; see `tx_extractors_crash_on_truncated_tx`. -/
theorem decoders_never_crash :
    (∀ s, read_push_data_checked s = RunResult.value (read_push_data s)) ∧
    (∀ s, parse_push_items_checked s = RunResult.value (parse_push_items s)) :=
  ⟨read_push_data_checked_eq,
    fun s => parse_push_items_checked_go_eq s.length s []⟩

/-- C4 counterexample: on the one-byte transaction `[0x00]` (hex "00")
both raw-transaction extractors panic at `&tx_bytes[4..]`
(`src/main.rs:1228`, `1266`) instead of returning `None`. -/
theorem tx_extractors_crash_on_truncated_tx :
    extract_op_return_from_tx [0] = RunResult.crashed ∧
    extract_flac_manifest_from_tx [0] = RunResult.crashed :=
  ⟨by decide, by decide⟩

/-! ## C5: split transaction outputs -/

/-- C5: when the input covers the outputs plus the estimated fee, the
split transaction's outputs 0..num_outputs-1 each hold
`satoshis_per_output` locked to the given (payer's own P2PKH) script,
with a change output appended at the tail exactly when the remainder
exceeds the 546-satoshi dust limit; otherwise the call returns an error
naming the amounts.  And the orchestrator's funding-output count for a
payload split at chunk size `m` is `ceil(P / m) + 1`. -/
theorem split_transaction_outputs_spec :
    (∀ (input : Int) (spk : List Nat) (n : Nat) (per fee : Int),
      per * n + fee ≤ input →
      create_split_transaction_outputs input spk n per fee =
        .ok (List.replicate n (spk, per) ++
          (if 546 < input - per * n - fee then [(spk, input - per * n - fee)]
            else []))) ∧
    (∀ (input : Int) (spk : List Nat) (n : Nat) (per fee : Int),
      input < per * n + fee →
      create_split_transaction_outputs input spk n per fee =
        .error ("Insufficient funds for split: " ++ toString input ++ " < " ++
          toString (per * (n : Int)) ++ " + " ++ toString fee)) ∧
    (∀ (payload : List Nat) (m : Nat), 0 < m →
      (split_into_chunks payload m).length + 1 = (payload.length + m - 1) / m + 1) := by
  refine ⟨?_, ?_, ?_⟩
  · intro input spk n per fee h
    unfold create_split_transaction_outputs
    rw [if_neg (by omega)]
    by_cases hc : 546 < input - per * n - fee
    · rw [if_pos hc, if_pos hc]
    · rw [if_neg hc, if_neg hc, List.append_nil]
  · intro input spk n per fee h
    unfold create_split_transaction_outputs
    rw [if_pos (by omega)]
  · intro payload m hm
    rw [split_into_chunks_count payload m hm]

theorem split_transaction_outputs_spec_witness :
    ((100 : Int) * 2 + 50 ≤ 10000 ∧
      create_split_transaction_outputs 10000 [1] 2 100 50 =
        .ok (List.replicate 2 ([1], (100 : Int)) ++ [([1], 9750)])) ∧
    ((10000 : Int) < 100 * 200 + 50 ∧
      create_split_transaction_outputs 10000 [1] 200 100 50 =
        .error "Insufficient funds for split: 10000 < 20000 + 50") ∧
    ((0 : Nat) < 2 ∧ (split_into_chunks [1, 2, 3] 2).length + 1 = 2 + 1) := by
  refine ⟨⟨by decide, ?_⟩, ⟨by decide, ?_⟩, by decide, ?_⟩
  · have h := split_transaction_outputs_spec.1 10000 [1] 2 100 50 (by decide)
    rw [h]
    norm_num
  · have h := split_transaction_outputs_spec.2.1 10000 [1] 200 100 50 (by decide)
    rw [h]
    rfl
  · have h := split_transaction_outputs_spec.2.2 [1, 2, 3] 2 (by decide)
    rw [h]
    norm_num

/-! ## C6: chunk broadcast retry loop -/

theorem chunk_broadcast_go_attempts_le :
    ∀ (result : Nat → Except String String) fuel retry,
      (chunk_broadcast_go result fuel retry).2.1 ≤ fuel := by
  intro result fuel
  induction fuel with
  | zero => intro retry; simp [chunk_broadcast_go]
  | succ fuel ih =>
    intro retry
    simp only [chunk_broadcast_go]
    cases result retry with
    | ok txid => simp
    | error e => simpa using ih (retry + 1)

/-- C6: the chunk broadcast loop makes at most 5 attempts; when all five
fail, the sleeps between attempts are 2, 4, 8 and 16 seconds — the code
computes `1 << retry` for `retry = 1..4` — not the 1, 2, 4, 8 seconds of
the claim (and of the comment at `src/main.rs:776`). -/
theorem chunk_retry_backoff_divergence :
    chunk_broadcast_loop (fun _ => .error "transient") = ([2, 4, 8, 16], 5, none) ∧
    [2, 4, 8, 16] ≠ [1, 2, 4, 8] ∧
    (∀ result, (chunk_broadcast_loop result).2.1 ≤ 5) :=
  ⟨by decide, by decide, fun result => chunk_broadcast_go_attempts_le result 5 0⟩

/-! ## C9: upload progress trace -/

/-- C9: with a cover image present, the upload orchestrator's recorded
progress sequence starts `5.0, 3.0, …` (`src/main.rs:484` then `:532`) —
a strict decrease — so progress is not monotonically non-decreasing
within the processing attempt. -/
theorem upload_progress_decreases_with_cover :
    upload_progress_trace true 2 = [5, 3, 5, 8, 10, 10, 45, 85, 95, 100] ∧
    ¬ List.Chain' (· ≤ ·) (upload_progress_trace true 2) := by
  constructor
  · simp [upload_progress_trace, List.range_succ]
    norm_num
  · intro hchain
    have h1 : upload_progress_trace true 2 = [5, 3, 5, 8, 10, 10, 45, 85, 95, 100] := by
      simp [upload_progress_trace, List.range_succ]
      norm_num
    rw [h1, List.chain'_cons] at hchain
    have h2 := hchain.1
    norm_num at h2

/-! ## C8: FLAC download decoder fallback order -/

/-- C8 (amended): after fetching the transaction, `process_flac_download`
takes the manifest path when the manifest extractor matches, otherwise
the single-container path when that extractor matches, and otherwise
fails — it never attempts the legacy OP_RETURN decoder (see
`flac_download_skips_legacy`). -/
theorem flac_download_decision_order :
    (∀ tx m, extract_flac_manifest_from_tx tx = .value (some m) →
      flac_download_decide tx = .value (some (.manifestPath m))) ∧
    (∀ tx r, extract_flac_manifest_from_tx tx = .value none →
      extract_flac_from_tx tx = .value (some r) →
      flac_download_decide tx = .value (some (.singlePath r.1 r.2))) ∧
    (∀ tx, extract_flac_manifest_from_tx tx = .value none →
      extract_flac_from_tx tx = .value none →
      flac_download_decide tx = .value (some .failedNoData)) := by
  refine ⟨?_, ?_, ?_⟩
  · intro tx m h1
    unfold flac_download_decide
    rw [h1]
  · intro tx r h1 h2
    unfold flac_download_decide
    rw [h1, h2]
  · intro tx h1 h2
    unfold flac_download_decide
    rw [h1, h2]

theorem flac_download_decision_order_witness :
    extract_flac_manifest_from_tx legacy_op_return_tx = .value none ∧
    extract_flac_from_tx legacy_op_return_tx = .value none ∧
    flac_download_decide legacy_op_return_tx = .value (some .failedNoData) :=
  ⟨by decide, by decide,
    flac_download_decision_order.2.2 legacy_op_return_tx (by decide) (by decide)⟩

/-- C8 counterexample: a transaction carrying a decodable legacy
OP_RETURN payload (`"upfile" "text/plain" "greeting.txt" "hello"`) is
failed by the FLAC download orchestrator, although the legacy decoder
(`extract_op_return_from_tx`) recognizes it — so the claimed
legacy-OP_RETURN fallback does not exist in `process_flac_download`. -/
theorem flac_download_skips_legacy :
    flac_download_decide legacy_op_return_tx = .value (some .failedNoData) ∧
    extract_op_return_from_tx legacy_op_return_tx =
      .value (some (ascii "hello", ascii "greeting.txt")) :=
  ⟨by decide, by decide⟩

/-! ## C7: manifest metadata fields (spec-modelled encoder) -/

/-- C7 (spec-modelled): the metadata JSON object of the full manifest
encoder contains `size`, `chunks`, `version` and `mime`, and additionally
every optional field (`title`, `artist`, `lyrics`, `cover_txid`) that was
supplied non-empty. -/
theorem manifest_metadata_optional_fields (file_size chunks : Nat)
    (title artist lyrics cover_txid : Option (List Nat)) :
    (ascii "size", JValue.jnum file_size) ∈
      manifest_metadata_fields file_size chunks title artist lyrics cover_txid ∧
    (ascii "chunks", JValue.jnum chunks) ∈
      manifest_metadata_fields file_size chunks title artist lyrics cover_txid ∧
    (ascii "version", JValue.jstr (ascii "1.0")) ∈
      manifest_metadata_fields file_size chunks title artist lyrics cover_txid ∧
    (ascii "mime", JValue.jstr (ascii "audio/flac")) ∈
      manifest_metadata_fields file_size chunks title artist lyrics cover_txid ∧
    (∀ t, title = some t → t ≠ [] → (ascii "title", JValue.jstr t) ∈
      manifest_metadata_fields file_size chunks title artist lyrics cover_txid) ∧
    (∀ a, artist = some a → a ≠ [] → (ascii "artist", JValue.jstr a) ∈
      manifest_metadata_fields file_size chunks title artist lyrics cover_txid) ∧
    (∀ l, lyrics = some l → l ≠ [] → (ascii "lyrics", JValue.jstr l) ∈
      manifest_metadata_fields file_size chunks title artist lyrics cover_txid) ∧
    (∀ c, cover_txid = some c → c ≠ [] → (ascii "cover_txid", JValue.jstr c) ∈
      manifest_metadata_fields file_size chunks title artist lyrics cover_txid) := by
  refine ⟨?_, ?_, ?_, ?_, ?_, ?_, ?_, ?_⟩
  · simp [manifest_metadata_fields]
  · simp [manifest_metadata_fields]
  · simp [manifest_metadata_fields]
  · simp [manifest_metadata_fields]
  · intro t ht hne; subst ht; simp [manifest_metadata_fields, hne]
  · intro a ha hne; subst ha; simp [manifest_metadata_fields, hne]
  · intro l hl hne; subst hl; simp [manifest_metadata_fields, hne]
  · intro c hc hne; subst hc; simp [manifest_metadata_fields, hne]

theorem manifest_metadata_optional_fields_witness :
    (some (ascii "T") = some (ascii "T") ∧ ascii "T" ≠ []) ∧
    (ascii "title", JValue.jstr (ascii "T")) ∈
      manifest_metadata_fields 4096 2 (some (ascii "T")) none (some []) none :=
  ⟨⟨rfl, by decide⟩,
    (manifest_metadata_optional_fields 4096 2 (some (ascii "T")) none (some []) none).2.2.2.2.1
      (ascii "T") rfl (by decide)⟩

/-! ## C10: the single-container decoder needs four pushes -/

/-- C10: `parse_flac_store_script` returns `None` for any container
script holding fewer than four pushes; in particular a `"flacstore"`
container encoding a zero-byte payload (protocol, mime and metadata
pushes but no data chunk) is not decodable, so encode-then-decode of a
single-container upload fails for the empty payload. -/
theorem flac_store_requires_four_pushes :
    (∀ s items, parse_push_items s = some items → items.length < 4 →
      parse_flac_store_script s = none) ∧
    parse_flac_store_script
      ((create_flac_store_script (ascii "flacstore") (ascii "audio/flac")
        (single_store_metadata_json (ascii "a.flac") 0)
        (split_into_chunks [] (100 * 1024))).drop 2) = none := by
  constructor
  · intro s items h1 h2
    unfold parse_flac_store_script
    rw [h1]
    simp [h2]
  · decide

theorem flac_store_requires_four_pushes_witness :
    parse_push_items [0x68] = some [] ∧ ([] : List (List Nat)).length < 4 ∧
    parse_flac_store_script [0x68] = none :=
  ⟨by decide, by decide,
    flac_store_requires_four_pushes.1 [0x68] [] (by decide) (by decide)⟩
